import Mathlib

/-!
Verification of the forecasting-tools driver-research core.

This file gives a shallow embedding of three components of the repository:

* the prediction drift guard of `DriversBot._aggregate_predictions`
  (forecast_bots/experiments/drivers_bot.py),
* the research-stream orchestrator `DriversBot.run_research`
  (forecast_bots/experiments/drivers_bot.py),
* the driver-discovery pipeline `DriversResearcher.research_drivers`
  (agents_and_tools/research/drivers_researcher.py), and
* the `BaseRateEstimate` validator
  (agents_and_tools/research/base_rate_researcher.py).

Python floats are modelled as exact rationals (`ℚ`); every arithmetic
constant appearing in the source (0.15, 0.6, 0.001, ...) is an exact
decimal, so this is faithful up to floating-point rounding.  LLM and
search backends are external collaborators: their per-call results are
supplied by an explicit oracle, and the calls a pipeline run issues are
recorded in an explicit call log.
-/

/-! ## Drift guard: binary branch (drivers_bot.py, lines 34-36 and 66-79) -/

def MAX_BINARY_DRIFT : ℚ := 0.15

def MAX_NUMERIC_DRIFT : ℚ := 0.15

def NEW_WEIGHT : ℚ := 0.6

/-- The blend-and-clamp applied when the binary drift exceeds the bound
(lines 73-75 of drivers_bot.py). -/
def driftClamp (newp previous : ℚ) : ℚ :=
  if |newp - previous| > MAX_BINARY_DRIFT then
    max 0.001 (min 0.999 (NEW_WEIGHT * newp + (1 - NEW_WEIGHT) * previous))
  else newp

/-- Binary branch of `DriversBot._aggregate_predictions`: `newp` is the
freshly aggregated probability, `history` the question's
`previous_forecasts` probabilities in order (oldest first).  An empty
history (Python `if not question.previous_forecasts`) passes the value
through; otherwise only the last entry is compared. -/
def aggregateBinary (newp : ℚ) (history : List ℚ) : ℚ :=
  (history.getLast?).elim newp (driftClamp newp)

/-! ## BaseRateEstimate.normalize_historical_rate
(base_rate_researcher.py, lines 69-78) -/

/-- The `mode="before"` validator: inputs above 1.0 are interpreted as
percentages and divided by 100. -/
def normalizeHistoricalRate (v : ℚ) : ℚ :=
  if v > 1.0 then v / 100.0 else v

/-- Construction of the `historical_rate` field: the before-validator runs
first, then the `ge=0.0, le=1.0` field constraint; a violated constraint
makes pydantic construction fail (`none`). -/
def mkHistoricalRate (v : ℚ) : Option ℚ :=
  if 0.0 ≤ normalizeHistoricalRate v ∧ normalizeHistoricalRate v ≤ 1.0 then
    some (normalizeHistoricalRate v)
  else none

/-! ## Theorems for the binary drift guard (claim C1) -/

theorem driftClamp_of_gt (newp prev : ℚ) (h : |newp - prev| > 0.15) :
    driftClamp newp prev = max 0.001 (min 0.999 (0.6 * newp + 0.4 * prev)) := by
  unfold driftClamp MAX_BINARY_DRIFT NEW_WEIGHT
  rw [if_pos h]
  norm_num

theorem driftClamp_of_le (newp prev : ℚ) (h : |newp - prev| ≤ 0.15) :
    driftClamp newp prev = newp := by
  unfold driftClamp MAX_BINARY_DRIFT
  rw [if_neg (not_lt.mpr h)]

/-- C1: Binary drift guard.  With empty history the new value passes
through; with non-empty history only the last entry is consulted: if the
absolute difference exceeds 0.15 the result is 0.6×new + 0.4×previous
clamped to [0.001, 0.999], otherwise the new value is unchanged.
Examples: previous 0.30 and new 0.80 blend to 0.60; history [0.1, 0.5]
with new 0.80 blends against 0.5 giving 0.68. -/
theorem binary_drift_guard_correct :
    (∀ newp : ℚ, aggregateBinary newp [] = newp) ∧
    (∀ (newp prev : ℚ) (hist : List ℚ), hist.getLast? = some prev →
      (|newp - prev| > 0.15 →
        aggregateBinary newp hist = max 0.001 (min 0.999 (0.6 * newp + 0.4 * prev))) ∧
      (|newp - prev| ≤ 0.15 → aggregateBinary newp hist = newp)) ∧
    (∀ (newp : ℚ) (h₁ h₂ : List ℚ), h₁.getLast? = h₂.getLast? →
      aggregateBinary newp h₁ = aggregateBinary newp h₂) ∧
    aggregateBinary 0.80 [0.30] = 0.60 ∧
    aggregateBinary 0.80 [0.1, 0.5] = 0.68 := by
  refine ⟨fun newp => rfl, ?_, ?_, ?_, ?_⟩
  · intro newp prev hist hlast
    unfold aggregateBinary
    rw [hlast]
    exact ⟨fun h => driftClamp_of_gt newp prev h, fun h => driftClamp_of_le newp prev h⟩
  · intro newp h₁ h₂ he
    unfold aggregateBinary
    rw [he]
  · show aggregateBinary 0.80 [0.30] = 0.60
    unfold aggregateBinary
    rw [show ([0.30] : List ℚ).getLast? = some 0.30 from rfl]
    show driftClamp 0.80 0.30 = 0.60
    rw [driftClamp_of_gt 0.80 0.30 (by rw [abs_of_pos (by norm_num)]; norm_num)]
    norm_num
  · show aggregateBinary 0.80 [0.1, 0.5] = 0.68
    unfold aggregateBinary
    rw [show ([0.1, 0.5] : List ℚ).getLast? = some 0.5 from rfl]
    show driftClamp 0.80 0.5 = 0.68
    rw [driftClamp_of_gt 0.80 0.5 (by rw [abs_of_pos (by norm_num)]; norm_num)]
    norm_num

theorem binary_drift_guard_correct_witness :
    aggregateBinary 0.80 [0.30] = max 0.001 (min 0.999 (0.6 * 0.80 + 0.4 * 0.30)) :=
  (binary_drift_guard_correct.2.1 0.80 0.30 [0.30] rfl).1
    (by rw [abs_of_pos (by norm_num)]; norm_num)

/-! ## Theorems for historical-rate normalization (claim C10) -/

/-- C10: a supplied `historical_rate` strictly greater than 1.0 is stored
divided by 100 (40.0 is stored as 0.4); every successfully constructed
estimate has `historical_rate` in [0.0, 1.0]; construction fails for
inputs below 0.0 or above 100.0. -/
theorem historical_rate_normalization :
    (∀ v : ℚ, v > 1.0 → normalizeHistoricalRate v = v / 100) ∧
    mkHistoricalRate 40.0 = some 0.4 ∧
    (∀ v r : ℚ, mkHistoricalRate v = some r → 0.0 ≤ r ∧ r ≤ 1.0) ∧
    (∀ v : ℚ, v < 0.0 → mkHistoricalRate v = none) ∧
    (∀ v : ℚ, v > 100.0 → mkHistoricalRate v = none) := by
  refine ⟨?_, ?_, ?_, ?_, ?_⟩
  · intro v hv
    unfold normalizeHistoricalRate
    rw [if_pos hv]
    norm_num
  · unfold mkHistoricalRate normalizeHistoricalRate
    norm_num
  · intro v r h
    unfold mkHistoricalRate at h
    split at h
    · rename_i hc
      obtain ⟨h1, h2⟩ := hc
      cases h
      exact ⟨h1, h2⟩
    · cases h
  · intro v hv
    unfold mkHistoricalRate
    rw [if_neg]
    intro hc
    have hle : normalizeHistoricalRate v = v := by
      unfold normalizeHistoricalRate
      rw [if_neg (by linarith)]
    rw [hle] at hc
    linarith [hc.1]
  · intro v hv
    unfold mkHistoricalRate
    rw [if_neg]
    intro hc
    have hgt : normalizeHistoricalRate v = v / 100 := by
      unfold normalizeHistoricalRate
      rw [if_pos (by linarith)]
      norm_num
    rw [hgt] at hc
    have h2 := hc.2
    norm_num at h2
    rw [div_le_one (by norm_num : (0 : ℚ) < 100)] at h2
    linarith

theorem historical_rate_normalization_witness :
    normalizeHistoricalRate 40.0 = 40.0 / 100 ∧ mkHistoricalRate 120.0 = none :=
  ⟨historical_rate_normalization.1 40.0 (by norm_num),
   historical_rate_normalization.2.2.2.2 120.0 (by norm_num)⟩

/-! ## Data model of the driver pipeline (drivers_researcher.py, lines 551-650) -/

inductive SteepCategory where
  | social
  | technological
  | economic
  | environmental
  | political
  deriving DecidableEq

inductive Directionality where
  | accelerating
  | decelerating
  | stable
  | unclear
  deriving DecidableEq

inductive DriverStrength where
  | weak
  | moderate
  | strong
  deriving DecidableEq

inductive PreconditionStatus where
  | emerging
  | stable
  | absent
  | contrary
  deriving DecidableEq

structure Precondition where
  description : String
  why_necessary : String
  status : Option PreconditionStatus := none
  evidence_summary : Option String := none
  citations : List String := []
  deriving DecidableEq

structure DominanceScenario where
  scenario_description : String
  timescale_plausibility : String
  system_effects : List String
  deriving DecidableEq

structure PreconditionAnalysis where
  driver_name : String
  dominance_scenario : DominanceScenario
  preconditions : List Precondition
  precondition_alignment_score : ℚ
  overall_emergence_strength : String
  deriving DecidableEq

structure CandidateDriver where
  name : String
  category : SteepCategory
  mechanism : String
  directionality : Directionality
  initial_relevance : ℚ
  deriving DecidableEq

structure SignalEvidence where
  summary : String
  citation : String
  recency : Option String := none
  deriving DecidableEq

structure ScoredDriver where
  name : String
  category : SteepCategory
  mechanism : String
  directionality : Directionality
  signals : List SignalEvidence
  direction_of_pressure : String
  strength : DriverStrength
  uncertainty : String
  deriving DecidableEq

structure DriverAssessment where
  index : Int
  direction_of_pressure : String
  strength : DriverStrength
  uncertainty : String
  deriving DecidableEq

/-- The `.value` string of a STEEP category. -/
def steepValue : SteepCategory → String
  | .social => "social"
  | .technological => "technological"
  | .economic => "economic"
  | .environmental => "environmental"
  | .political => "political"

/-- Python's `str.title()` applied to a category value (used in
`ScoredDriver.display_text`). -/
def steepTitle : SteepCategory → String
  | .social => "Social"
  | .technological => "Technological"
  | .economic => "Economic"
  | .environmental => "Environmental"
  | .political => "Political"

def directionalityValue : Directionality → String
  | .accelerating => "accelerating"
  | .decelerating => "decelerating"
  | .stable => "stable"
  | .unclear => "unclear"

def strengthValue : DriverStrength → String
  | .weak => "weak"
  | .moderate => "moderate"
  | .strong => "strong"

/-- `ScoredDriver.display_text` (drivers_researcher.py, lines 625-633). -/
def displayText (d : ScoredDriver) : String :=
  "**" ++ d.name ++ "** [" ++ steepTitle d.category ++ "] (" ++
    strengthValue d.strength ++ ", " ++ directionalityValue d.directionality ++
    "): " ++ d.mechanism ++ ". " ++ d.direction_of_pressure ++ ". Evidence: " ++
    String.intercalate "; " ((d.signals.take 2).map (fun s => s.summary))

/-- `ScoredDriver.turn_drivers_into_markdown` (lines 635-642). -/
def turnDriversIntoMarkdown (drivers : List ScoredDriver) : String :=
  if drivers.isEmpty then "No drivers identified."
  else String.intercalate "\n" (drivers.map (fun d => "- " ++ displayText d))

/-! ## BaseRateEstimate rendering (base_rate_researcher.py, lines 57-92) -/

structure BaseRateEstimate where
  reference_class : String
  numerator_description : String
  denominator_description : String
  numerator : Int
  denominator : Int
  historical_rate : ℚ
  time_period : String
  relevance_reasoning : String
  deriving DecidableEq

/-- Round to the nearest integer with ties going to the even integer, the
rounding Python's `format(x, ".0%")` applies. -/
def roundHalfEven (q : ℚ) : Int :=
  if q - ⌊q⌋ < 1 / 2 then ⌊q⌋
  else if q - ⌊q⌋ > 1 / 2 then ⌊q⌋ + 1
  else if ⌊q⌋ % 2 = 0 then ⌊q⌋ else ⌊q⌋ + 1

/-- Python's `f"{rate:.0%}"`. -/
def percentString (r : ℚ) : String :=
  toString (roundHalfEven (r * 100)) ++ "%"

/-- `BaseRateEstimate.format_as_markdown` (lines 80-92). -/
def formatAsMarkdown (estimates : List BaseRateEstimate) : String :=
  if estimates.isEmpty then "No base rates identified."
  else String.intercalate "\n" (estimates.map (fun est =>
    "- **" ++ est.reference_class ++ "** (" ++ est.time_period ++ "): " ++
      toString est.numerator ++ "/" ++ toString est.denominator ++ " = " ++
      percentString est.historical_rate ++ ". " ++ est.relevance_reasoning))

/-! ## Research-stream orchestrator (drivers_bot.py, lines 140-225) -/

/-- Sibling-stream output of `KeyFactorsResearcher` (module not in src;
only its markdown-rendering contract is used by the orchestrator). -/
structure ScoredKeyFactor where
  display_text : String
  deriving DecidableEq

/-- Modelled from the spec: `ScoredKeyFactor.turn_key_factors_into_markdown_list`
(the key_factors_researcher module is absent from src); the spec requires
only a deterministic markdown-list rendering of the factors. -/
def keyFactorsMarkdown (factors : List ScoredKeyFactor) : String :=
  String.intercalate "\n" (factors.map (fun k => "- " ++ k.display_text))

/-- Outcome of one gathered research stream: `exception` when the awaited
task raised (collected by `asyncio.gather(..., return_exceptions=True)`),
`ok` with the produced list otherwise. -/
inductive StreamResult (α : Type) where
  | exception
  | ok (value : List α)
  deriving DecidableEq

/-- Stream A processing (lines 158-171): on success the section is built
unconditionally, with no emptiness check. -/
def driversSection : StreamResult ScoredDriver → String
  | .exception => ""
  | .ok drivers => "## STEEP Driver Analysis\n" ++ turnDriversIntoMarkdown drivers ++ "\n\n"

/-- Stream B processing (lines 173-189): the section is built only when
the result list is non-empty. -/
def keyFactorsSection : StreamResult ScoredKeyFactor → String
  | .exception => ""
  | .ok factors =>
    if factors.isEmpty then ""
    else "## Key Factors\n" ++ keyFactorsMarkdown factors ++ "\n\n"

/-- Stream D processing (lines 191-205): the section is built only when
the result list is non-empty. -/
def baseRatesSection : StreamResult BaseRateEstimate → String
  | .exception => ""
  | .ok rates =>
    if rates.isEmpty then ""
    else "## Base Rate Analysis\n" ++ formatAsMarkdown rates ++ "\n\n"

/-- Stream C (lines 207-214): the news fetch is wrapped in its own
try/except, so a failure (`none`) leaves the section empty. -/
def newsSection : Option String → String
  | none => ""
  | some s => s

/-- `DriversBot.run_research`: the report is the ordered concatenation of
the four stream sections. -/
def runResearch (drivers : StreamResult ScoredDriver)
    (keyFactors : StreamResult ScoredKeyFactor)
    (baseRates : StreamResult BaseRateEstimate)
    (news : Option String) : String :=
  driversSection drivers ++ keyFactorsSection keyFactors ++
    baseRatesSection baseRates ++ newsSection news

/-! ## Substring occurrence (for section-header reasoning) -/

def startsWithChars : List Char → List Char → Bool
  | [], _ => true
  | _ :: _, [] => false
  | a :: as, b :: bs => a == b && startsWithChars as bs

def occursChars (pat : List Char) : List Char → Bool
  | [] => pat.isEmpty
  | c :: rest => startsWithChars pat (c :: rest) || occursChars pat rest

/-- `pat` occurs as a contiguous substring of `s`. -/
def occursIn (pat s : String) : Prop :=
  occursChars pat.data s.data = true

instance (pat s : String) : Decidable (occursIn pat s) := by
  unfold occursIn
  infer_instance

theorem startsWithChars_append (pat rest : List Char) :
    startsWithChars pat (pat ++ rest) = true := by
  induction pat with
  | nil => rfl
  | cons a as ih => simp [startsWithChars, ih]

theorem occursChars_of_startsWithChars (pat s : List Char)
    (h : startsWithChars pat s = true) : occursChars pat s = true := by
  cases s with
  | nil =>
    cases pat with
    | nil => rfl
    | cons a as => exact absurd h (by simp [startsWithChars])
  | cons c rest => simp [occursChars, h]

/-- A string occurs in any string it is a prefix of. -/
theorem occursIn_append_left (pat rest : String) : occursIn pat (pat ++ rest) := by
  unfold occursIn
  rw [String.data_append]
  exact occursChars_of_startsWithChars _ _ (startsWithChars_append _ _)

theorem occursIn_prefix (pat tail s : String) (h : s = pat ++ tail) :
    occursIn pat s := h ▸ occursIn_append_left pat tail

/-! ## Theorems for the orchestrator (claims C5 and C6) -/

/-- C5 counterexample: a drivers stream that succeeds with an empty list
still contributes its titled section header to the report, contradicting
the claim that a stream succeeding with an empty list contributes no
section header. -/
theorem drivers_header_rendered_for_empty_success :
    occursIn "## STEEP Driver Analysis"
      (runResearch (.ok []) (.ok []) (.ok []) (some "news text")) := by
  decide

/-- C5 amended: the report is the ordered concatenation of the four
sections; the key-factors and base-rates streams contribute their titled
sections only on success with non-empty content (failure or an empty list
yields the empty section), but the drivers stream contributes its titled
section whenever it succeeds, even with an empty list (rendering the
"No drivers identified." sentinel under the header). -/
theorem research_sections_characterization :
    (∀ (d : StreamResult ScoredDriver) (kf : StreamResult ScoredKeyFactor)
        (br : StreamResult BaseRateEstimate) (news : Option String),
      runResearch d kf br news =
        driversSection d ++ keyFactorsSection kf ++ baseRatesSection br ++ newsSection news) ∧
    keyFactorsSection .exception = "" ∧
    keyFactorsSection (.ok []) = "" ∧
    (∀ factors : List ScoredKeyFactor, factors ≠ [] →
      occursIn "## Key Factors" (keyFactorsSection (.ok factors))) ∧
    baseRatesSection .exception = "" ∧
    baseRatesSection (.ok []) = "" ∧
    (∀ rates : List BaseRateEstimate, rates ≠ [] →
      occursIn "## Base Rate Analysis" (baseRatesSection (.ok rates))) ∧
    driversSection .exception = "" ∧
    (∀ drivers : List ScoredDriver,
      occursIn "## STEEP Driver Analysis" (driversSection (.ok drivers))) ∧
    driversSection (.ok []) = "## STEEP Driver Analysis\nNo drivers identified.\n\n" := by
  refine ⟨fun _ _ _ _ => rfl, rfl, rfl, ?_, rfl, rfl, ?_, rfl, ?_, rfl⟩
  · intro factors hne
    show occursIn "## Key Factors"
      (if factors.isEmpty then "" else "## Key Factors\n" ++ keyFactorsMarkdown factors ++ "\n\n")
    rw [if_neg (by simpa [List.isEmpty_iff] using hne)]
    exact occursIn_prefix _ ("\n" ++ keyFactorsMarkdown factors ++ "\n\n") _
      (by simp only [← String.append_assoc]; rfl)
  · intro rates hne
    show occursIn "## Base Rate Analysis"
      (if rates.isEmpty then "" else "## Base Rate Analysis\n" ++ formatAsMarkdown rates ++ "\n\n")
    rw [if_neg (by simpa [List.isEmpty_iff] using hne)]
    exact occursIn_prefix _ ("\n" ++ formatAsMarkdown rates ++ "\n\n") _
      (by simp only [← String.append_assoc]; rfl)
  · intro drivers
    show occursIn "## STEEP Driver Analysis"
      ("## STEEP Driver Analysis\n" ++ turnDriversIntoMarkdown drivers ++ "\n\n")
    exact occursIn_prefix _ ("\n" ++ turnDriversIntoMarkdown drivers ++ "\n\n") _
      (by simp only [← String.append_assoc]; rfl)

theorem research_sections_characterization_witness :
    occursIn "## Key Factors" (keyFactorsSection (.ok [⟨"factor"⟩])) :=
  research_sections_characterization.2.2.2.1 [⟨"factor"⟩] (by decide)

/-- C6: when all three gathered streams raise and the news fetch
succeeds, the report equals the fetched news text; in particular it
contains the news text, and it contains none of the three section headers
provided the news text itself does not.  Stream failures never make
`run_research` fail: it is a total function of the stream outcomes. -/
theorem run_research_all_streams_fail (news : String) :
    runResearch .exception .exception .exception (some news) = news ∧
    (¬ occursIn "## STEEP Driver Analysis" news →
      ¬ occursIn "## STEEP Driver Analysis"
        (runResearch .exception .exception .exception (some news))) ∧
    (¬ occursIn "## Key Factors" news →
      ¬ occursIn "## Key Factors"
        (runResearch .exception .exception .exception (some news))) ∧
    (¬ occursIn "## Base Rate Analysis" news →
      ¬ occursIn "## Base Rate Analysis"
        (runResearch .exception .exception .exception (some news))) := by
  have he : runResearch .exception .exception .exception (some news) = news := rfl
  exact ⟨he, by rw [he]; exact id, by rw [he]; exact id, by rw [he]; exact id⟩

theorem run_research_all_streams_fail_witness :
    runResearch .exception .exception .exception (some "AskNews results") = "AskNews results" ∧
    ¬ occursIn "## STEEP Driver Analysis"
      (runResearch .exception .exception .exception (some "AskNews results")) :=
  ⟨(run_research_all_streams_fail "AskNews results").1,
   (run_research_all_streams_fail "AskNews results").2.1 (by decide)⟩

/-! ## Driver-discovery pipeline (drivers_researcher.py, lines 23-548)

The generation and search backends are external; one pipeline run's
backend responses are collected in an `LlmOracle`, keyed the same way the
code keys them (by candidate position, by position in the analysis list,
by precondition position).  Each pipeline function also returns the list
of backend calls it issued, so call-emission claims are provable. -/

/-- Raw result of the search-plus-extract call for one precondition: the
`dict` the extraction model returned, with the `.get` defaults of lines
300-302 already applied (`status` defaults to "absent", summary to "",
citations to `[]`).  `none` models the call raising. -/
structure SearchOutcome where
  status : String
  evidence_summary : String
  citations : List String
  deriving DecidableEq

structure LlmOracle where
  /-- Index list returned by the phase-2 filter generation call. -/
  filterIndices : List Int
  /-- Dominance-scenario call result per candidate position (`none` = the
  call raised). -/
  dominance : Nat → Option DominanceScenario
  /-- Preconditions call result per candidate position (`none` = the call
  raised). -/
  preconds : Nat → Option (List Precondition)
  /-- Search-plus-extract result per (analysis position, precondition
  position). -/
  searchOutcome : Nat → Nat → Option SearchOutcome
  /-- Signal-extraction result per validated-candidate position (`none` =
  the call raised; an empty list drops the candidate). -/
  extractSignals : Nat → Option (List SignalEvidence)
  /-- Assessment list returned by the phase-5 scoring call. -/
  assessments : List DriverAssessment
  /-- Index list returned by the phase-5 final-selection call. -/
  finalIndices : List Int

/-- One backend call issued by the pipeline (a search-plus-extract task
counts as one entry). -/
inductive LlmCall where
  | filterCall
  | dominanceCall (i : Nat)
  | precondsCall (i : Nat)
  | searchCall (i j : Nat)
  | validateCall (i : Nat)
  | scoreCall
  | finalSelectCall
  deriving DecidableEq

/-- Index resolution used by `_filter_candidates` (line 151) and
`_final_selection` (line 548): `[xs[i] for i in indices if 0 <= i < len(xs)]`. -/
def resolveIndices {α : Type} (xs : List α) (indices : List Int) : List α :=
  indices.filterMap fun i =>
    if h : 0 ≤ i ∧ i < (xs.length : Int) then
      some (xs.get ⟨i.toNat, by omega⟩)
    else none

/-- `analyze_driver` (lines 176-250): the dominance call, then (only on
its success) the preconditions call; failure of either removes the
candidate (`none`). -/
def analyzeOne (o : LlmOracle) (i : Nat) : Option (DominanceScenario × List Precondition) :=
  match o.dominance i with
  | none => none
  | some dom =>
    match o.preconds i with
    | none => none
    | some ps => some (dom, ps)

/-- Calls issued by the per-candidate analysis fan-out: one dominance call
per candidate, plus a preconditions call for candidates whose dominance
call succeeded. -/
def analyzeCalls (o : LlmOracle) (n : Nat) : List LlmCall :=
  ((List.range n).map fun i =>
    match o.dominance i with
    | none => [LlmCall.dominanceCall i]
    | some _ => [LlmCall.dominanceCall i, LlmCall.precondsCall i]).flatten

/-- `driver_analyses` (lines 252-258): failed analyses are removed, the
surviving tuples keep candidate order. -/
def driverAnalyses (o : LlmOracle) (candidates : List CandidateDriver) :
    List (CandidateDriver × DominanceScenario × List Precondition) :=
  candidates.enum.filterMap fun ic =>
    (analyzeOne o ic.1).map fun dp => (ic.2, dp.1, dp.2)

/-- `PreconditionStatus(...)` construction from the model's status string:
an unknown string raises (handled by the enclosing except). -/
def parseStatus : String → Option PreconditionStatus
  | "emerging" => some .emerging
  | "stable" => some .stable
  | "absent" => some .absent
  | "contrary" => some .contrary
  | _ => none

/-- `search_precondition` (lines 269-309) applied to one precondition: on
any failure (search/extract raised, or an unrecognized status string) the
status is defaulted to `absent` and the evidence fields are left
untouched; on success all three fields are set. -/
def applySearch (p : Precondition) : Option SearchOutcome → Precondition
  | none => { p with status := some .absent }
  | some out =>
    match parseStatus out.status with
    | none => { p with status := some .absent }
    | some st =>
      { p with
        status := some st
        evidence_summary := some out.evidence_summary
        citations := out.citations }

/-- The re-update loop of lines 334-340 matches search results back to
preconditions by description.  The precondition records are shared with
the search results, so when two preconditions of one driver share a
description, the fields of the first processed result are copied over all
of them (the model fixes completion order to task order; it coincides
with the code on distinct descriptions, where the loop is the identity). -/
def reapplyByDescription (ps : List Precondition) : List Precondition :=
  ps.map fun p =>
    match ps.find? (fun q => q.description == p.description) with
    | some q =>
      { p with
        status := q.status
        evidence_summary := q.evidence_summary
        citations := q.citations }
    | none => p

/-- Preconditions of the analysis at position `idx` after the
search phase (mutation of lines 300-307 plus the re-update loop). -/
def searchedPreconditions (o : LlmOracle) (idx : Nat) (ps : List Precondition) :
    List Precondition :=
  reapplyByDescription (ps.enum.map fun jp => applySearch jp.2 (o.searchOutcome idx jp.1))

/-- The analysis tuples with their preconditions updated by the search
phase, keyed by position in the analysis list (lines 325-331). -/
def updatedAnalyses (o : LlmOracle)
    (das : List (CandidateDriver × DominanceScenario × List Precondition)) :
    List (CandidateDriver × DominanceScenario × List Precondition) :=
  das.enum.map fun ia => (ia.2.1, ia.2.2.1, searchedPreconditions o ia.1 ia.2.2.2)

def favorableStatus (p : Precondition) : Bool :=
  p.status == some .emerging || p.status == some .stable

/-- Alignment score (lines 352-362): favorable fraction, 0 with no
preconditions. -/
def alignmentScore (ps : List Precondition) : ℚ :=
  if ps.isEmpty then 0 else (ps.countP favorableStatus : ℚ) / (ps.length : ℚ)

/-- Emergence-strength label (lines 364-372). -/
def emergenceStrength (a : ℚ) : String :=
  if a ≥ 0.75 then "strong"
  else if a ≥ 0.5 then "moderate"
  else if a ≥ 0.25 then "weak"
  else "very_weak"

/-- `plausibility_scores.get(..., 0.5)` (lines 346 and 385-387). -/
def plausibilityScore (s : String) : ℚ :=
  if s = "high" then 1.0
  else if s = "medium" then 0.7
  else if s = "low" then 0.4
  else if s = "very_low" then 0.1
  else 0.5

/-- Evidence quality (lines 388-390): fraction of preconditions carrying
at least one citation. -/
def evidenceQuality (ps : List Precondition) : ℚ :=
  (ps.countP (fun p => !p.citations.isEmpty) : ℚ) / ((max ps.length 1 : ℕ) : ℚ)

/-- Combined score (lines 392-397). -/
def combinedScore (rel align plaus ev : ℚ) : ℚ :=
  0.30 * rel + 0.40 * align + 0.20 * plaus + 0.10 * ev

def PRECONDITION_THRESHOLD : ℚ := 0.2

def mkAnalysis (c : CandidateDriver) (d : DominanceScenario) (ps : List Precondition) :
    PreconditionAnalysis :=
  { driver_name := c.name
    dominance_scenario := d
    preconditions := ps
    precondition_alignment_score := alignmentScore ps
    overall_emergence_strength := emergenceStrength (alignmentScore ps) }

def analysesOf (o : LlmOracle) (candidates : List CandidateDriver) :
    List PreconditionAnalysis :=
  (updatedAnalyses o (driverAnalyses o candidates)).map fun e =>
    mkAnalysis e.1 e.2.1 e.2.2

def scoredCandidatesOf (o : LlmOracle) (candidates : List CandidateDriver) :
    List (CandidateDriver × ℚ) :=
  (updatedAnalyses o (driverAnalyses o candidates)).map fun e =>
    (e.1, combinedScore e.1.initial_relevance (alignmentScore e.2.2)
      (plausibilityScore e.2.1.timescale_plausibility) (evidenceQuality e.2.2))

/-- Stable descending sort by score (`filtered.sort(key=..., reverse=True)`,
line 404; Python's sort is stable). -/
def insertByScoreDesc (x : CandidateDriver × ℚ) :
    List (CandidateDriver × ℚ) → List (CandidateDriver × ℚ)
  | [] => [x]
  | y :: ys => if x.2 ≥ y.2 then x :: y :: ys else y :: insertByScoreDesc x ys

def sortByScoreDesc (l : List (CandidateDriver × ℚ)) : List (CandidateDriver × ℚ) :=
  l.foldr insertByScoreDesc []

/-- Threshold filter and sort of lines 400-405. -/
def validatedOf (o : LlmOracle) (candidates : List CandidateDriver) :
    List CandidateDriver :=
  (sortByScoreDesc ((scoredCandidatesOf o candidates).filter
    fun cs => decide (cs.2 ≥ PRECONDITION_THRESHOLD))).map fun cs => cs.1

/-- Search-plus-extract calls issued by phase 3b, one per (analysis
position, precondition position). -/
def searchCallsOf (das : List (CandidateDriver × DominanceScenario × List Precondition)) :
    List LlmCall :=
  (das.enum.map fun ia => ia.2.2.2.enum.map fun jp => LlmCall.searchCall ia.1 jp.1).flatten

/-- `DriversResearcher._precondition_validation` (lines 153-407), with its
call log.  With no candidates it returns empty lists without calls
(line 168); when every per-candidate analysis fails it returns the full
input candidate list with an empty analysis list (lines 260-261). -/
def preconditionValidation (o : LlmOracle) (candidates : List CandidateDriver) :
    (List CandidateDriver × List PreconditionAnalysis) × List LlmCall :=
  if candidates.isEmpty then (([], []), [])
  else if (driverAnalyses o candidates).isEmpty then
    ((candidates, []), analyzeCalls o candidates.length)
  else
    ((validatedOf o candidates, analysesOf o candidates),
      analyzeCalls o candidates.length ++ searchCallsOf (driverAnalyses o candidates))

/-- Conversion of a surviving candidate into a placeholder `ScoredDriver`
(lines 451-460). -/
def mkScoredDriver (c : CandidateDriver) (signals : List SignalEvidence) : ScoredDriver :=
  { name := c.name
    category := c.category
    mechanism := c.mechanism
    directionality := c.directionality
    signals := signals
    direction_of_pressure := ""
    strength := .moderate
    uncertainty := "" }

/-- One in-place assessment application of `_score_drivers`
(lines 511-516): out-of-range indices are ignored. -/
def applyAssessment (ds : List ScoredDriver) (a : DriverAssessment) : List ScoredDriver :=
  if h : 0 ≤ a.index ∧ a.index < (ds.length : Int) then
    ds.set a.index.toNat
      { ds.get ⟨a.index.toNat, by omega⟩ with
        direction_of_pressure := a.direction_of_pressure
        strength := a.strength
        uncertainty := a.uncertainty }
  else ds

def applyAssessments (ds : List ScoredDriver) (assessments : List DriverAssessment) :
    List ScoredDriver :=
  assessments.foldl applyAssessment ds

/-- `DriversResearcher._validate_with_search` (lines 409-473) with its
call log: one search-plus-extract per candidate; candidates whose call
raised or yielded zero signals are dropped; the phase-5 scoring call is
issued only when at least one `ScoredDriver` survives. -/
def validateWithSearch (o : LlmOracle) (candidates : List CandidateDriver) :
    List ScoredDriver × List LlmCall :=
  let results := candidates.enum.filterMap fun ic =>
    match o.extractSignals ic.1 with
    | none => none
    | some signals =>
      if signals.isEmpty then none else some (mkScoredDriver ic.2 signals)
  let vCalls := candidates.enum.map fun ic => LlmCall.validateCall ic.1
  if results.isEmpty then (results, vCalls)
  else (applyAssessments results o.assessments, vCalls ++ [LlmCall.scoreCall])

/-- Final selection (lines 59-63 and 520-548): issued only when more
drivers survive than requested. -/
def finalSelectionStep (o : LlmOracle) (scored : List ScoredDriver) (numToReturn : Nat) :
    List ScoredDriver × List LlmCall :=
  if scored.length > numToReturn then
    (resolveIndices scored o.finalIndices, [LlmCall.finalSelectCall])
  else (scored, [])

/-- `DriversResearcher.research_drivers` (lines 27-64) from the broad-scan
result onwards: `candidates` is the phase-1 candidate list, the returned
pair is the final driver list together with the backend calls issued after
phase 1.  The phase-2 filter call is issued unconditionally (line 41). -/
def researchDrivers (o : LlmOracle) (candidates : List CandidateDriver)
    (numToReturn : Nat) : List ScoredDriver × List LlmCall :=
  let filtered := resolveIndices candidates o.filterIndices
  let pv := preconditionValidation o filtered
  let vw := validateWithSearch o pv.1.1
  let fs := finalSelectionStep o vw.1 numToReturn
  (fs.1, LlmCall.filterCall :: (pv.2 ++ vw.2 ++ fs.2))

/-! ## Concrete pipeline runs used as counterexamples -/

def exCandidate (n : String) : CandidateDriver :=
  { name := n
    category := .technological
    mechanism := "mechanism"
    directionality := .accelerating
    initial_relevance := 1 }

def exCandidates : List CandidateDriver := [exCandidate "Driver 0", exCandidate "Driver 1"]

/-- An oracle on which every per-candidate precondition analysis fails but
every evidence-validation call finds one signal. -/
def exOracle : LlmOracle :=
  { filterIndices := [0, 1]
    dominance := fun _ => none
    preconds := fun _ => none
    searchOutcome := fun _ _ => none
    extractSignals := fun _ =>
      some [{ summary := "evidence", citation := "[1](https://example.com)", recency := some "2024" }]
    assessments := []
    finalIndices := [0, 1] }

/-! ## Theorems for the pipeline length bound (claim C2) -/

theorem resolveIndices_length_le {α : Type} (xs : List α) (indices : List Int) :
    (resolveIndices xs indices).length ≤ indices.length :=
  List.length_filterMap_le _ _

/-- C2 counterexample: with target_count 1 and a final-selection call
returning the two in-range indices [0, 1], `research_drivers` returns 2
drivers, exceeding target_count. -/
theorem research_drivers_exceeds_target :
    ¬ ((researchDrivers exOracle exCandidates 1).1.length ≤ 1) := by
  decide

/-- C2 amended: the pipeline returns the drivers at the in-range indices
of the final-selection list, so its length is bounded by target_count
whenever the final-selection call returns at most target_count indices
(the code never truncates the resolved list itself). -/
theorem research_drivers_length_bound (o : LlmOracle) (candidates : List CandidateDriver)
    (n : Nat) (h : o.finalIndices.length ≤ n) :
    (researchDrivers o candidates n).1.length ≤ n := by
  have he : (researchDrivers o candidates n).1 =
      (finalSelectionStep o
        (validateWithSearch o
          (preconditionValidation o (resolveIndices candidates o.filterIndices)).1.1).1 n).1 := rfl
  rw [he]
  unfold finalSelectionStep
  split
  · exact le_trans (resolveIndices_length_le _ _) h
  · next hng => exact Nat.le_of_not_lt hng

theorem research_drivers_length_bound_witness :
    (researchDrivers exOracle exCandidates 2).1.length ≤ 2 :=
  research_drivers_length_bound exOracle exCandidates 2 (by decide)

/-! ## Theorems for total precondition-analysis failure (claim C3) -/

/-- C3 counterexample: on an input where the dominance call fails for
every candidate, `_precondition_validation` returns the full candidate
list (not an empty survivor list), and the pipeline goes on to produce a
non-empty result from it. -/
theorem precondition_failure_keeps_candidates :
    (preconditionValidation exOracle exCandidates).1.1 = exCandidates ∧
    exCandidates ≠ [] ∧
    (researchDrivers exOracle exCandidates 8).1 ≠ [] := by
  refine ⟨?_, ?_, ?_⟩ <;> decide

/-- C3 amended: if every per-candidate precondition analysis fails, the
precondition-validation phase degrades by returning the full input
candidate list with an empty analysis list, rather than raising; the
pipeline then continues into evidence validation with all those
candidates. -/
theorem precondition_validation_all_fail (o : LlmOracle) (candidates : List CandidateDriver)
    (h : ∀ i, analyzeOne o i = none) :
    (preconditionValidation o candidates).1 = (candidates, []) := by
  by_cases hc : candidates.isEmpty
  · have hnil : candidates = [] := List.isEmpty_iff.mp hc
    subst hnil
    rfl
  · have hda : driverAnalyses o candidates = [] := by
      unfold driverAnalyses
      apply List.filterMap_eq_nil_iff.mpr
      intro ic _
      rw [h ic.1]
      rfl
    unfold preconditionValidation
    rw [if_neg hc, hda]
    simp

theorem precondition_validation_all_fail_witness :
    (preconditionValidation exOracle exCandidates).1 = (exCandidates, []) :=
  precondition_validation_all_fail exOracle exCandidates (fun _ => rfl)

/-! ## Theorems for the empty broad scan (claim C4) -/

theorem resolveIndices_nil {α : Type} (indices : List Int) :
    resolveIndices ([] : List α) indices = [] := by
  unfold resolveIndices
  apply List.filterMap_eq_nil_iff.mpr
  intro i _
  rw [dif_neg]
  intro hcon
  have h1 := hcon.1
  have h2 := hcon.2
  simp only [List.length_nil, Nat.cast_zero] at h2
  omega

/-- C4 counterexample: with an empty phase-1 candidate list the phase-2
filter generation call is still issued, contradicting the claim that no
later phase issues any call. -/
theorem filter_call_issued_on_empty_scan :
    LlmCall.filterCall ∈ (researchDrivers exOracle [] 8).2 := by
  decide

/-- C4 amended: with an empty phase-1 candidate list the pipeline returns
an empty driver list, and the only call issued after phase 1 is the
phase-2 filter generation call (which is issued unconditionally); the
precondition, evidence-validation, scoring and final-selection phases
issue no calls. -/
theorem research_drivers_empty_scan (o : LlmOracle) (n : Nat) :
    researchDrivers o [] n = ([], [LlmCall.filterCall]) := by
  unfold researchDrivers
  simp only [resolveIndices_nil]
  rfl

/-! ## Theorems for the combined score (claim C8) -/

/-- C8: the combined score is
0.30×initial_relevance + 0.40×alignment + 0.20×plausibility +
0.10×evidence_quality; it is monotone non-decreasing in the alignment
score with the other terms fixed, and at alignment 1.0, plausibility
"high" (mapped to 1.0), evidence quality 1.0 and relevance 1.0 it equals
1.0 exactly (in the exact-rational model of the float arithmetic). -/
theorem combined_score_spec :
    (∀ rel align plaus ev : ℚ,
      combinedScore rel align plaus ev =
        0.30 * rel + 0.40 * align + 0.20 * plaus + 0.10 * ev) ∧
    (∀ rel plaus ev a₁ a₂ : ℚ, a₁ ≤ a₂ →
      combinedScore rel a₁ plaus ev ≤ combinedScore rel a₂ plaus ev) ∧
    plausibilityScore "high" = 1.0 ∧
    combinedScore 1.0 1.0 (plausibilityScore "high") 1.0 = 1 := by
  have hp : plausibilityScore "high" = 1.0 := by
    unfold plausibilityScore
    rw [if_pos rfl]
  refine ⟨fun _ _ _ _ => rfl, ?_, hp, ?_⟩
  · intro rel plaus ev a₁ a₂ h
    unfold combinedScore
    have h4 : (0.40 : ℚ) * a₁ ≤ 0.40 * a₂ := by
      apply mul_le_mul_of_nonneg_left h
      norm_num
    linarith
  · rw [hp]
    unfold combinedScore
    norm_num

theorem combined_score_spec_witness :
    combinedScore 1 0.2 0.5 0 ≤ combinedScore 1 0.9 0.5 0 :=
  combined_score_spec.2.1 1 0.5 0 0.2 0.9 (by norm_num)

/-! ## Theorems for index-resolution safety (claim C9) -/

theorem resolveIndices_filter_eq {α : Type} (xs : List α) (indices : List Int) :
    resolveIndices xs (indices.filter fun i =>
      decide (0 ≤ i) && decide (i < (xs.length : Int))) = resolveIndices xs indices := by
  induction indices with
  | nil => rfl
  | cons i rest ih =>
    by_cases h : 0 ≤ i ∧ i < (xs.length : Int)
    · have hb : (decide (0 ≤ i) && decide (i < (xs.length : Int))) = true := by
        simp [h.1, h.2]
      rw [List.filter_cons, if_pos hb]
      unfold resolveIndices at ih ⊢
      rw [List.filterMap_cons, List.filterMap_cons, dif_pos h, ih]
    · have hb : (decide (0 ≤ i) && decide (i < (xs.length : Int))) = false := by
        rcases not_and_or.mp h with h1 | h1 <;> simp [h1]
      rw [List.filter_cons, if_neg (by simp [hb])]
      unfold resolveIndices at ih ⊢
      rw [List.filterMap_cons, dif_neg h, ih]

theorem resolveIndices_mem {α : Type} (xs : List α) (indices : List Int) (x : α)
    (hx : x ∈ resolveIndices xs indices) : x ∈ xs := by
  unfold resolveIndices at hx
  obtain ⟨i, _, hfx⟩ := List.mem_filterMap.mp hx
  split at hfx
  · cases hfx
    exact List.get_mem _ _ _
  · cases hfx

theorem applyAssessment_length (ds : List ScoredDriver) (a : DriverAssessment) :
    (applyAssessment ds a).length = ds.length := by
  unfold applyAssessment
  split
  · rw [List.length_set]
  · rfl

theorem applyAssessments_length (ds : List ScoredDriver) (assessments : List DriverAssessment) :
    (applyAssessments ds assessments).length = ds.length := by
  induction assessments generalizing ds with
  | nil => rfl
  | cons a rest ih =>
    show (applyAssessments (applyAssessment ds a) rest).length = ds.length
    rw [ih, applyAssessment_length]

theorem applyAssessments_filter_eq (ds : List ScoredDriver)
    (assessments : List DriverAssessment) :
    applyAssessments ds (assessments.filter fun a =>
      decide (0 ≤ a.index) && decide (a.index < (ds.length : Int))) =
      applyAssessments ds assessments := by
  induction assessments generalizing ds with
  | nil => rfl
  | cons a rest ih =>
    by_cases h : 0 ≤ a.index ∧ a.index < (ds.length : Int)
    · have hb : (decide (0 ≤ a.index) && decide (a.index < (ds.length : Int))) = true := by
        simp [h.1, h.2]
      rw [List.filter_cons, if_pos hb]
      show applyAssessments (applyAssessment ds a) (rest.filter fun b =>
          decide (0 ≤ b.index) && decide (b.index < (ds.length : Int))) =
        applyAssessments (applyAssessment ds a) rest
      rw [show (ds.length : Int) = ((applyAssessment ds a).length : Int) by
        rw [applyAssessment_length]]
      exact ih (applyAssessment ds a)
    · have hb : (decide (0 ≤ a.index) && decide (a.index < (ds.length : Int))) = false := by
        rcases not_and_or.mp h with h1 | h1 <;> simp [h1]
      rw [List.filter_cons, if_neg (by simp [hb])]
      have hskip : applyAssessment ds a = ds := by
        unfold applyAssessment
        rw [dif_neg h]
      show applyAssessments ds (rest.filter fun b =>
          decide (0 ≤ b.index) && decide (b.index < (ds.length : Int))) =
        applyAssessments (applyAssessment ds a) rest
      rw [hskip]
      exact ih ds

/-- C9: every index list resolved against a candidate or driver list
(phase-2 filter, phase-5 final selection, both `resolveIndices`; phase-5
scoring, `applyAssessments`) silently discards indices < 0 or ≥ the list
length: dropping them first changes nothing, every resolved element comes
from the list itself, and score updates never change the list length. -/
theorem index_resolution_safe :
    (∀ (α : Type) (xs : List α) (indices : List Int),
      resolveIndices xs (indices.filter fun i =>
        decide (0 ≤ i) && decide (i < (xs.length : Int))) = resolveIndices xs indices) ∧
    (∀ (α : Type) (xs : List α) (indices : List Int) (x : α),
      x ∈ resolveIndices xs indices → x ∈ xs) ∧
    (∀ (ds : List ScoredDriver) (assessments : List DriverAssessment),
      (applyAssessments ds assessments).length = ds.length) ∧
    (∀ (ds : List ScoredDriver) (assessments : List DriverAssessment),
      applyAssessments ds (assessments.filter fun a =>
        decide (0 ≤ a.index) && decide (a.index < (ds.length : Int))) =
        applyAssessments ds assessments) :=
  ⟨fun _ xs indices => resolveIndices_filter_eq xs indices,
   fun _ xs indices x hx => resolveIndices_mem xs indices x hx,
   fun ds assessments => applyAssessments_length ds assessments,
   fun ds assessments => applyAssessments_filter_eq ds assessments⟩

theorem index_resolution_safe_witness :
    "b" ∈ ["a", "b"] :=
  index_resolution_safe.2.1 String ["a", "b"] [1, 5, -3] "b" (by decide)

/-! ## Drift guard: numeric branch (drivers_bot.py, lines 81-136) -/

/-- One declared percentile of a `NumericDistribution`. -/
structure PercentileE where
  percentile : ℚ
  value : ℚ
  deriving DecidableEq

/-- Lookup in the dict `{p.percentile: p.value for p in ...}`: built by
left-to-right insertion, so for duplicate percentile keys the last entry
wins. -/
def lookupPct : List PercentileE → ℚ → Option ℚ
  | [], _ => none
  | p :: ps, k =>
    match lookupPct ps k with
    | some v => some v
    | none => if p.percentile = k then some p.value else none

/-- Distinct keys of a percentile list (Python `set(...)`; kept order is
irrelevant because the common keys are sorted afterwards). -/
def dedupKeys : List ℚ → List ℚ
  | [] => []
  | k :: ks => if k ∈ ks then dedupKeys ks else k :: dedupKeys ks

def insertSortedAsc (x : ℚ) : List ℚ → List ℚ
  | [] => [x]
  | y :: ys => if x ≤ y then x :: y :: ys else y :: insertSortedAsc x ys

/-- Python `sorted(...)` for a list of rationals (ascending). -/
def sortAsc (l : List ℚ) : List ℚ := l.foldr insertSortedAsc []

/-- `sorted(set(prev_percentiles.keys()) & set(new_percentiles.keys()))`
(lines 94-96). -/
def commonPoints (prevPs newPs : List PercentileE) : List ℚ :=
  sortAsc ((dedupKeys (newPs.map fun p => p.percentile)).filter
    fun k => decide (k ∈ prevPs.map fun p => p.percentile))

/-- The blended percentile list (lines 106-118): every declared percentile
of the new forecast is blended 0.6/0.4 against the previous value at the
same percentile, falling back to the new value where the previous
forecast lacks that percentile. -/
def blendPercentiles (newPs prevPs : List PercentileE) : List PercentileE :=
  newPs.map fun p =>
    { percentile := p.percentile
      value := NEW_WEIGHT * p.value +
        (1 - NEW_WEIGHT) * ((lookupPct prevPs p.percentile).getD p.value) }

inductive NumericGuardResult where
  /-- No blending: the aggregate distribution is returned unchanged. -/
  | passthrough (ps : List PercentileE)
  /-- Blending triggered: the blended percentiles are handed to the
  bound-normalizing `NumericDistribution.from_question` reconstruction
  (lines 119-132; `from_question` lives outside src and is modelled
  opaquely by this constructor). -/
  | renormalized (blended : List PercentileE)
  deriving DecidableEq

/-- Numeric branch of `DriversBot._aggregate_predictions` (lines 81-136):
`newPs` are the declared percentiles of the aggregate, `history` the
declared-percentile lists of `question.previous_forecasts` (oldest
first), `lower`/`upper` the question bounds.  The mid percentile key is
element `len // 2` of the sorted common-key list (`get?` returns `none`
exactly when the common-key list is empty, matching the
`if common_points:` guard, since `len // 2 < len` for non-empty lists);
the key is guaranteed present in both dicts, so the `getD 0` defaults are
never exercised. -/
def aggregateNumeric (newPs : List PercentileE) (history : List (List PercentileE))
    (lower upper : ℚ) : NumericGuardResult :=
  match history.getLast? with
  | none => .passthrough newPs
  | some prevPs =>
    match (commonPoints prevPs newPs).get? ((commonPoints prevPs newPs).length / 2) with
    | none => .passthrough newPs
    | some midPct =>
      if upper - lower > 0 then
        if |(lookupPct newPs midPct).getD 0 - (lookupPct prevPs midPct).getD 0| /
            (upper - lower) > MAX_NUMERIC_DRIFT then
          .renormalized (blendPercentiles newPs prevPs)
        else .passthrough newPs
      else .passthrough newPs

/-- Previous forecast of the numeric drift-guard example: median 30,
bounds [0, 100]. -/
def exPrevPs : List PercentileE :=
  [{ percentile := 0.1, value := 10 }, { percentile := 0.5, value := 30 },
   { percentile := 0.9, value := 50 }]

/-- New forecast of the numeric drift-guard example: median 70. -/
def exNewPs : List PercentileE :=
  [{ percentile := 0.1, value := 30 }, { percentile := 0.5, value := 70 },
   { percentile := 0.9, value := 90 }]

/-! ## Theorems for the numeric drift guard (claim C7) -/

/-- Case analysis of the numeric guard when a mid common percentile
exists: blending exactly when the range is positive and the relative
drift at the mid key exceeds 0.15. -/
theorem aggregateNumeric_cases (newPs prevPs : List PercentileE)
    (history : List (List PercentileE)) (lower upper midPct : ℚ)
    (h1 : history.getLast? = some prevPs)
    (h2 : (commonPoints prevPs newPs).get? ((commonPoints prevPs newPs).length / 2) =
      some midPct) :
    (upper - lower > 0 →
      (|(lookupPct newPs midPct).getD 0 - (lookupPct prevPs midPct).getD 0| /
          (upper - lower) > 0.15 →
        aggregateNumeric newPs history lower upper =
          .renormalized (blendPercentiles newPs prevPs)) ∧
      (|(lookupPct newPs midPct).getD 0 - (lookupPct prevPs midPct).getD 0| /
          (upper - lower) ≤ 0.15 →
        aggregateNumeric newPs history lower upper = .passthrough newPs)) ∧
    (upper - lower ≤ 0 →
      aggregateNumeric newPs history lower upper = .passthrough newPs) := by
  unfold aggregateNumeric
  rw [h1]
  simp only [h2]
  constructor
  · intro hpos
    rw [if_pos hpos]
    constructor
    · intro hd
      rw [if_pos (by unfold MAX_NUMERIC_DRIFT; exact hd)]
    · intro hd
      rw [if_neg (by unfold MAX_NUMERIC_DRIFT; exact not_lt.mpr hd)]
  · intro hnp
    rw [if_neg (not_lt.mpr hnp)]

theorem commonPoints_example : commonPoints exPrevPs exNewPs = [0.1, 0.5, 0.9] := by
  norm_num [commonPoints, exPrevPs, exNewPs, dedupKeys, sortAsc, insertSortedAsc]

theorem midPct_example :
    (commonPoints exPrevPs exNewPs).get? ((commonPoints exPrevPs exNewPs).length / 2) =
      some 0.5 := by
  rw [commonPoints_example]
  exact rfl

theorem drift_example :
    |(lookupPct exNewPs 0.5).getD 0 - (lookupPct exPrevPs 0.5).getD 0| /
      ((100 : ℚ) - 0) > 0.15 := by
  rw [show lookupPct exNewPs 0.5 = some 70 from by norm_num [lookupPct, exNewPs],
    show lookupPct exPrevPs 0.5 = some 30 from by norm_num [lookupPct, exPrevPs]]
  show |(70 : ℚ) - 30| / (100 - 0) > 0.15
  rw [show |(70 : ℚ) - 30| = 40 from by rw [abs_of_pos (by norm_num)]; norm_num]
  norm_num

theorem blend_example : blendPercentiles exNewPs exPrevPs =
    [{ percentile := 0.1, value := 22 }, { percentile := 0.5, value := 54 },
     { percentile := 0.9, value := 74 }] := by
  norm_num [blendPercentiles, exNewPs, exPrevPs, lookupPct, NEW_WEIGHT]

/-- C7: Numeric drift guard.  With a previous forecast sharing at least
one percentile key with the new one, the comparison point is the exact
mid element (index `len / 2`) of the sorted common-key list; when the
bound range is positive and the relative drift at that key exceeds 0.15,
every declared percentile of the new forecast is blended
0.6×new + 0.4×previous (falling back to the new value where the previous
forecast lacks the percentile) and the blended set is re-normalized to
the question's bounds; otherwise (drift ≤ 0.15, non-positive range, no
common key, or no history) the new forecast passes through unchanged.
Example: previous median 30, new median 70, bounds [0, 100] give relative
drift 0.40 > 0.15 and a blended median of 54, strictly between 30 and 70. -/
theorem numeric_drift_guard_correct :
    (∀ (newPs prevPs : List PercentileE) (history : List (List PercentileE))
        (lower upper midPct : ℚ),
      history.getLast? = some prevPs →
      (commonPoints prevPs newPs).get? ((commonPoints prevPs newPs).length / 2) =
        some midPct →
      (upper - lower > 0 →
        (|(lookupPct newPs midPct).getD 0 - (lookupPct prevPs midPct).getD 0| /
            (upper - lower) > 0.15 →
          aggregateNumeric newPs history lower upper =
            .renormalized (blendPercentiles newPs prevPs)) ∧
        (|(lookupPct newPs midPct).getD 0 - (lookupPct prevPs midPct).getD 0| /
            (upper - lower) ≤ 0.15 →
          aggregateNumeric newPs history lower upper = .passthrough newPs)) ∧
      (upper - lower ≤ 0 →
        aggregateNumeric newPs history lower upper = .passthrough newPs)) ∧
    (∀ (newPs prevPs : List PercentileE) (history : List (List PercentileE))
        (lower upper : ℚ),
      history.getLast? = some prevPs → commonPoints prevPs newPs = [] →
      aggregateNumeric newPs history lower upper = .passthrough newPs) ∧
    (∀ (newPs : List PercentileE) (lower upper : ℚ),
      aggregateNumeric newPs [] lower upper = .passthrough newPs) ∧
    (∀ (newPs prevPs : List PercentileE),
      blendPercentiles newPs prevPs = newPs.map fun p =>
        { percentile := p.percentile
          value := 0.6 * p.value + 0.4 * ((lookupPct prevPs p.percentile).getD p.value) }) ∧
    aggregateNumeric exNewPs [exPrevPs] 0 100 =
      .renormalized (blendPercentiles exNewPs exPrevPs) ∧
    lookupPct (blendPercentiles exNewPs exPrevPs) 0.5 = some 54 ∧
    ((30 : ℚ) < 54 ∧ (54 : ℚ) < 70) := by
  refine ⟨aggregateNumeric_cases, ?_, fun _ _ _ => rfl, ?_, ?_, ?_, by norm_num⟩
  · intro newPs prevPs history lower upper h1 h2
    unfold aggregateNumeric
    rw [h1]
    simp only [h2]
    rfl
  · intro newPs prevPs
    unfold blendPercentiles
    rw [show (1 : ℚ) - NEW_WEIGHT = 0.4 by unfold NEW_WEIGHT; norm_num,
      show NEW_WEIGHT = (0.6 : ℚ) from rfl]
  · exact ((aggregateNumeric_cases exNewPs exPrevPs [exPrevPs] 0 100 0.5 rfl
      midPct_example).1 (by norm_num)).1 drift_example
  · rw [blend_example]
    norm_num [lookupPct]

theorem numeric_drift_guard_correct_witness :
    aggregateNumeric exNewPs [exPrevPs] 0 100 =
      .renormalized (blendPercentiles exNewPs exPrevPs) :=
  ((numeric_drift_guard_correct.1 exNewPs exPrevPs [exPrevPs] 0 100 0.5 rfl
      midPct_example).1 (by norm_num)).1 drift_example
